import Mathlib

/-!
Verification of `plotbench.py` (repository `arl/golq`): the benchmark-log
parsing and aggregation logic (`main`, lines 14–57).

The script is Python 2 (`from __future__ import print_function`,
`dict.iteritems`).  Its core splits each input line with one of two
compiled regular expressions and accumulates the captured fields:

  `pat   = Benchmark(\w*)Lq(\d*)Radius(\d*)-(?:\d)*(?:\s)*(\w*)(?:\s)*(\w*)`
  `patbf = BenchmarkBruteForce(\d*)-(?:\d)*(?:\s)*(\w*)(?:\s)*(\w*)`

Both patterns are concatenations of literals and starred character
classes, so Python's leftmost-greedy match is deterministic maximal
munch everywhere except the first group of `pat`, where the greedy
`(\w*)` backtracks from the longest word-run prefix down to the longest
prefix after which `Lq(\d*)Radius(\d*)-` matches.  The functions below
embed exactly that semantics; `re.split` returns the unmatched pieces
interleaved with the groups of each match, in order.

Character classes are the ASCII ones of Python 2 `re` on `str` without
`re.UNICODE`: `\w = [a-zA-Z0-9_]`, `\d = [0-9]`,
`\s = [ \t\n\r\f\v]`.
-/

namespace Plotbench

/-- Python 2 `\d` on `str`: ASCII decimal digits. -/
def isDigitA (c : Char) : Bool := c.isDigit

/-- Python 2 `\s` on `str`: space, tab, newline, carriage return, form feed, vertical tab. -/
def isSpaceA (c : Char) : Bool :=
  c = ' ' || c = '\t' || c = '\n' || c = '\x0d' || c = '\x0c' || c = '\x0b'

/-- Python 2 `\w` on `str` without locale/unicode flags: ASCII letters, digits, underscore. -/
def isWordA (c : Char) : Bool := c.isAlpha || c.isDigit || c = '_'

/-- Consume a literal: `lit p l = some r` iff `l = p ++ r`. -/
def lit : List Char → List Char → Option (List Char)
  | [], l => some l
  | _ :: _, [] => none
  | p :: ps, c :: cs => if c = p then lit ps cs else none

/-- Anchored match of `patbf` (line 20 of the source,
`BenchmarkBruteForce(\d*)-(?:\d)*(?:\s)*(\w*)(?:\s)*(\w*)`) at the head of `l`.
Returns the three captured groups and the unconsumed rest.  Every starred
class is followed by a disjoint requirement, so greedy matching never
backtracks. -/
def tryBF (l : List Char) : Option (List Char × List Char × List Char × List Char) :=
  match lit "BenchmarkBruteForce".toList l with
  | none => none
  | some r1 =>
    let g1 := r1.takeWhile isDigitA
    match r1.dropWhile isDigitA with
    | '-' :: r3 =>
      let r4 := r3.dropWhile isDigitA
      let r5 := r4.dropWhile isSpaceA
      let g2 := r5.takeWhile isWordA
      let r6 := r5.dropWhile isWordA
      let r7 := r6.dropWhile isSpaceA
      let g3 := r7.takeWhile isWordA
      let r8 := r7.dropWhile isWordA
      some (g1, g2, g3, r8)
    | _ => none

/-- The part of `pat` after group 1: `Lq(\d*)Radius(\d*)-(?:\d)*(?:\s)*(\w*)(?:\s)*(\w*)`,
matched (deterministically, maximal munch) at the head of `l`.
Returns groups 2–5 and the unconsumed rest. -/
def tryCont (l : List Char) : Option (List Char × List Char × List Char × List Char × List Char) :=
  match lit "Lq".toList l with
  | none => none
  | some r1 =>
    let g2 := r1.takeWhile isDigitA
    match lit "Radius".toList (r1.dropWhile isDigitA) with
    | none => none
    | some r3 =>
      let g3 := r3.takeWhile isDigitA
      match r3.dropWhile isDigitA with
      | '-' :: r5 =>
        let r6 := r5.dropWhile isDigitA
        let r7 := r6.dropWhile isSpaceA
        let g4 := r7.takeWhile isWordA
        let r8 := r7.dropWhile isWordA
        let r9 := r8.dropWhile isSpaceA
        let g5 := r9.takeWhile isWordA
        let r10 := r9.dropWhile isWordA
        some (g2, g3, g4, g5, r10)
      | _ => none

/-- One candidate for group 1 of `pat`: `g1 = run.take k`, after which the
continuation `Lq...` must match. -/
def tryG1At (run after : List Char) (k : Nat) :
    Option (List Char × List Char × List Char × List Char × List Char × List Char) :=
  match tryCont (run.drop k ++ after) with
  | some (g2, g3, g4, g5, rest) => some (run.take k, g2, g3, g4, g5, rest)
  | none => none

/-- Greedy backtracking for group 1 of `pat`: `run` is the maximal `\w` run after
the literal `Benchmark`, `after` the input following it.  Candidates
`g1 = run.take k` are tried from `k` downwards (Python's greedy `(\w*)` tries the
longest first); the continuation must match `tryCont`. -/
def tryG1 (run after : List Char) :
    Nat → Option (List Char × List Char × List Char × List Char × List Char × List Char)
  | 0 => tryG1At run after 0
  | k + 1 =>
    match tryG1At run after (k + 1) with
    | some res => some res
    | none => tryG1 run after k

/-- Anchored match of `pat` (line 19 of the source,
`Benchmark(\w*)Lq(\d*)Radius(\d*)-(?:\d)*(?:\s)*(\w*)(?:\s)*(\w*)`) at the head
of `l`.  Returns the five captured groups and the unconsumed rest. -/
def tryVar (l : List Char) :
    Option (List Char × List Char × List Char × List Char × List Char × List Char) :=
  match lit "Benchmark".toList l with
  | none => none
  | some r =>
    let run := r.takeWhile isWordA
    tryG1 run (r.dropWhile isWordA) run.length

/-- Scanner for `patbf.split`: walks the input, emitting the unmatched piece and
the three groups at each leftmost match, then resuming at the match end.
`fuel` is an upper bound on the number of steps; every step consumes at least
one character, so `fuel = length of the input` always suffices and the
fuel-exhausted branch is unreachable from `splitBF`. -/
def scanBF : Nat → List Char → List Char → List (List Char)
  | _, [], acc => [acc.reverse]
  | 0, l, acc => [acc.reverse ++ l]
  | fuel + 1, c :: rest, acc =>
    match tryBF (c :: rest) with
    | some (g1, g2, g3, r) => acc.reverse :: g1 :: g2 :: g3 :: scanBF fuel r []
    | none => scanBF fuel rest (c :: acc)

/-- Scanner for `pat.split`, with five groups per match. -/
def scanVar : Nat → List Char → List Char → List (List Char)
  | _, [], acc => [acc.reverse]
  | 0, l, acc => [acc.reverse ++ l]
  | fuel + 1, c :: rest, acc =>
    match tryVar (c :: rest) with
    | some (g1, g2, g3, g4, g5, r) =>
      acc.reverse :: g1 :: g2 :: g3 :: g4 :: g5 :: scanVar fuel r []
    | none => scanVar fuel rest (c :: acc)

/-- `patbf.split(line)` (source line 28). -/
def splitBF (line : String) : List String :=
  (scanBF line.toList.length line.toList []).map List.asString

/-- `pat.split(line)` (source line 32). -/
def splitVar (line : String) : List String :=
  (scanVar line.toList.length line.toList []).map List.asString

/-- `s₁ in s₂` on Python strings: substring containment, used for
`'BruteForce' in line` (source line 27). -/
def hasPrefixCL : List Char → List Char → Bool
  | [], _ => true
  | _ :: _, [] => false
  | p :: ps, c :: cs => p = c && hasPrefixCL ps cs

/-- Substring occurrence check over lists of characters. -/
def hasSubstr (pat : List Char) : List Char → Bool
  | [] => hasPrefixCL pat []
  | c :: cs => hasPrefixCL pat (c :: cs) || hasSubstr pat cs

/-- `'BruteForce' in line` (source line 27). -/
def containsBruteForce (line : String) : Bool :=
  hasSubstr "BruteForce".toList line.toList

/-- The parser's mutable aggregates (source lines 23–24): `bf = [list(), list()]`
(brute-force sizes and times) and `lq = defaultdict(lambda: [[], []])` keyed by
label.  The default-dict is represented as an association list in key-insertion
order; keys are created only when first written (see `lqAppend`). -/
structure ParserState where
  bf0 : List String
  bf1 : List String
  lq : List (String × List String × List String)
deriving Repr, DecidableEq

/-- State before the loop: both aggregates empty. -/
def initState : ParserState := ⟨[], [], []⟩

/-- `lq[title][0].append(size); lq[title][1].append(time)` on the default-dict
(source lines 35–36): if `title` is present, append to its two lists in place;
otherwise the defaultdict creates `[[], []]` for `title` (a new, last key) and
the appends fill it. -/
def lqAppend :
    List (String × List String × List String) → String → String → String →
    List (String × List String × List String)
  | [], title, size, time => [(title, [size], [time])]
  | (k, ss, ts) :: rest, title, size, time =>
    if k = title then (k, ss ++ [size], ts ++ [time]) :: rest
    else (k, ss, ts) :: lqAppend rest title size time

/-- Read access `lq[k]` without the defaultdict effect, for stating properties. -/
def lqLookup :
    List (String × List String × List String) → String → Option (List String × List String)
  | [], _ => none
  | (k, ss, ts) :: rest, t => if k = t then some (ss, ts) else lqLookup rest t

/-- One iteration of the parsing loop (source lines 26–36).  The brute-force
branch indexes `v[1]` and `v[3]` without a length guard; an out-of-range index
is Python's uncaught `IndexError`, modelled as `Except.error ()` (the exception
aborts the program, so no state survives it).  The appends happen in source
order: `bf[0].append(v[1])` before `v[3]` is read. -/
def step (s : ParserState) (line : String) : Except Unit ParserState :=
  if containsBruteForce line then
    match (splitBF line).get? 1 with
    | none => .error ()
    | some x =>
      let s1 : ParserState := { s with bf0 := s.bf0 ++ [x] }
      match (splitBF line).get? 3 with
      | none => .error ()
      | some y => .ok { s1 with bf1 := s1.bf1 ++ [y] }
  else
    let v := splitVar line
    if v.length = 7 then
      let title := v.getD 1 "" ++ " radius " ++ v.getD 3 ""
      .ok { s with lq := lqAppend s.lq title (v.getD 2 "") (v.getD 5 "") }
    else
      .ok s

/-- The whole parsing loop (source lines 26–36) over the stripped input lines,
starting from empty aggregates; an uncaught exception stops the fold. -/
def processLines (lines : List String) : Except Unit ParserState :=
  lines.foldlM step initState

/-- Observable outcome of `main` (source lines 14–21): either the
missing-argument exit (message printed to stdout, exit status) or a completed
parse of the lines read from `sys.argv[1]`. -/
inductive MainResult where
  | usageExit : String → Nat → MainResult
  | completed : Except Unit ParserState → MainResult
deriving Repr

/-- `main` up to the aggregation (source lines 14–36): `sys.argv` is `argv`;
`readLines` stands for reading and newline-stripping the file named by
`sys.argv[1]` (source line 21) and is consulted only past the argument check. -/
def mainRun (argv : List String) (readLines : String → List String) : MainResult :=
  match argv with
  | _prog :: file :: _ => .completed (processLines (readLines file))
  | _ => .usageExit "need a benchmark to plot" 1

/-- 2^64, the modulus of CPython's `long`-sized arithmetic on 64-bit builds. -/
def M64 : Nat := 18446744073709551616

/-- Modelled from the runtime, not from `src/`: CPython 2.7 `string_hash`
(Objects/stringobject.c) on a 64-bit build with the default (non-randomized)
configuration, as an unsigned 64-bit value:
`x = ord(s[0]) << 7; for c in s: x = (1000003*x) ^ ord(c); x ^= len(s);
if x == -1: x = -2`.  The source's legend order (line 50, `lq.iteritems()`)
depends on it. -/
def pyhash (s : String) : Nat :=
  match s.toList with
  | [] => 0
  | c :: cs =>
    let x0 := (c.toNat * 128) % M64
    let x1 := (c :: cs).foldl (fun x ch => (((1000003 * x) % M64) ^^^ ch.toNat)) x0
    let x2 := x1 ^^^ (c :: cs).length
    if x2 = M64 - 1 then M64 - 2 else x2

/-- Modelled from the runtime, not from `src/`: CPython 2.7 open-addressing
probe (Objects/dictobject.c, `lookdict`) for inserting a fresh key into the
8-slot small table: `i = (5*i + perturb + 1) mod 2^64; perturb >>= 5;
slot = i mod 8` until a free slot is found.  The probe sequence always reaches
a free slot in well under 64 steps when one exists, so the fuel-exhausted
branch is unreachable for tables with a free slot. -/
def probeIns (table : List (Option String)) (key : String) :
    Nat → Nat → Nat → List (Option String)
  | 0, _, _ => table
  | fuel + 1, i, perturb =>
    let i' := (5 * i + perturb + 1) % M64
    match table.getD (i' % 8) none with
    | none => table.set (i' % 8) (some key)
    | some _ => probeIns table key fuel i' (perturb / 32)

/-- Modelled from the runtime, not from `src/`: inserting a key absent from the
dict (CPython 2.7, table size 8, i.e. at most 5 entries — no resize): first
slot `hash mod 8`, then the `probeIns` sequence with `perturb = hash`. -/
def dictInsert (table : List (Option String)) (key : String) : List (Option String) :=
  let h := pyhash key
  match table.getD (h % 8) none with
  | none => table.set (h % 8) (some key)
  | some _ => probeIns table key 64 (h % 8) h

/-- Modelled from the runtime, not from `src/`: the iteration order of a
CPython 2.7 dict holding `keys` (distinct, at most 5, inserted in list order):
entries come out in hash-table slot order 0..7, not in insertion order. -/
def pyDictIterOrder (keys : List String) : List String :=
  (keys.foldl dictInsert (List.replicate 8 none)).filterMap id

/-- Legend construction (source lines 39–54): `'Brute Force'` first, then one
entry per key of `lq` in the order of `lq.iteritems()` — the source is
Python 2, so that is CPython 2.7 dict slot order over the inserted keys, not
insertion order. -/
def legend (s : ParserState) : List String :=
  "Brute Force" :: pyDictIterOrder (s.lq.map Prod.fst)

/-- The spec's example input (§8.5). -/
def exampleLines : List String :=
  ["BenchmarkBruteForce100-8   500   ns/op",
   "BenchmarkFooLq100Radius5-8   200   ns/op",
   "BenchmarkFooLq200Radius5-8   350   ns/op",
   "garbage line"]

/-- Two accepted variant lines whose labels hash to decreasing slots
(slot 6 then slot 3 on 64-bit CPython 2.7), for the legend-order claim. -/
def legendLines : List String :=
  ["BenchmarkBarLq100Radius5-8   300   ns/op",
   "BenchmarkFooLq100Radius5-8   200   ns/op"]

/-- The state produced by the spec's §8.5 example input. -/
def exampleResult : ParserState :=
  ⟨["100"], ["ns"], [("Foo radius 5", ["100", "200"], ["ns", "ns"])]⟩

/-- The state produced by `legendLines`. -/
def legendState : ParserState :=
  ⟨[], [], [("Bar radius 5", ["100"], ["ns"]), ("Foo radius 5", ["100"], ["ns"])]⟩

/-- Neither pattern matches anywhere in the line (both splits return the whole
line as the single piece). -/
def matchesNeitherShape (line : String) : Bool :=
  (splitBF line).length == 1 && (splitVar line).length == 1

/-- Total number of recorded sizes across all variant series; `lqAppend` grows
it by exactly one, which shows appending never leaves `lq` unchanged. -/
def lqSize (lq : List (String × List String × List String)) : Nat :=
  (lq.map (fun e => e.2.1.length)).sum

/-- Both parallel sequences of every aggregate have equal length. -/
def seriesLensEq (s : ParserState) : Prop :=
  s.bf0.length = s.bf1.length ∧ ∀ e ∈ s.lq, e.2.1.length = e.2.2.length

/-- Every variant series present in the mapping is non-empty on both sides. -/
def seriesNonempty (s : ParserState) : Prop :=
  ∀ e ∈ s.lq, 1 ≤ e.2.1.length ∧ 1 ≤ e.2.2.length

theorem step_bf_err (s : ParserState) (line : String)
    (hc : containsBruteForce line = true) (hm : (splitBF line).length = 1) :
    step s line = .error () := by
  have h1 : (splitBF line)[1]? = none := List.getElem?_eq_none (by omega)
  simp [step, hc, h1]

theorem step_var_of_len7 (s : ParserState) (line : String)
    (hc : containsBruteForce line = false) (hv : (splitVar line).length = 7) :
    step s line = .ok ⟨s.bf0, s.bf1,
      lqAppend s.lq ((splitVar line).getD 1 "" ++ " radius " ++ (splitVar line).getD 3 "")
        ((splitVar line).getD 2 "") ((splitVar line).getD 5 "")⟩ := by
  simp [step, hc, hv]

theorem step_var_of_ne7 (s : ParserState) (line : String)
    (hc : containsBruteForce line = false) (hv : (splitVar line).length ≠ 7) :
    step s line = .ok s := by
  simp [step, hc, hv]

theorem step_ok_cases (s s' : ParserState) (line : String)
    (h : step s line = .ok s') :
    (∃ x y, s' = ⟨s.bf0 ++ [x], s.bf1 ++ [y], s.lq⟩) ∨
    (∃ t x y, s' = ⟨s.bf0, s.bf1, lqAppend s.lq t x y⟩) ∨ s' = s := by
  unfold step at h
  split at h
  · split at h
    · exact Except.noConfusion h
    · split at h
      · exact Except.noConfusion h
      · left
        cases h
        exact ⟨_, _, rfl⟩
  · dsimp only at h
    split at h
    · right; left
      cases h
      exact ⟨_, _, _, rfl⟩
    · right; right
      cases h
      rfl

theorem lqSize_lqAppend (lq : List (String × List String × List String)) (t x y : String) :
    lqSize (lqAppend lq t x y) = lqSize lq + 1 := by
  induction lq with
  | nil => simp [lqAppend, lqSize]
  | cons e rest ih =>
    obtain ⟨k, ss, ts⟩ := e
    by_cases hk : k = t
    · simp [lqAppend, hk, lqSize]
      omega
    · simp only [lqAppend, if_neg hk, lqSize, List.map_cons, List.sum_cons] at ih ⊢
      omega

theorem lqAppend_ne (lq : List (String × List String × List String)) (t x y : String) :
    lqAppend lq t x y ≠ lq := by
  intro h
  have := congrArg lqSize h
  rw [lqSize_lqAppend] at this
  omega

theorem lqLookup_lqAppend_self (lq : List (String × List String × List String)) (t x y : String) :
    lqLookup (lqAppend lq t x y) t =
      some (((lqLookup lq t).getD ([], [])).1 ++ [x],
            ((lqLookup lq t).getD ([], [])).2 ++ [y]) := by
  induction lq with
  | nil => simp [lqAppend, lqLookup]
  | cons e rest ih =>
    obtain ⟨k, ss, ts⟩ := e
    by_cases hk : k = t
    · simp [lqAppend, lqLookup, hk]
    · simp [lqAppend, lqLookup, hk, ih]

theorem lqLookup_lqAppend_ne (lq : List (String × List String × List String))
    (t x y k : String) (hk : k ≠ t) :
    lqLookup (lqAppend lq t x y) k = lqLookup lq k := by
  induction lq with
  | nil => simp [lqAppend, lqLookup, Ne.symm hk]
  | cons e rest ih =>
    obtain ⟨k', ss, ts⟩ := e
    by_cases hk' : k' = t
    · subst hk'
      simp [lqAppend, lqLookup, Ne.symm hk]
    · by_cases hkk : k' = k
      · subst hkk
        simp [lqAppend, lqLookup, hk']
      · simp [lqAppend, lqLookup, hk', hkk, ih]

theorem lqAppend_mem {Q : String × List String × List String → Prop}
    (lq : List (String × List String × List String)) (t x y : String)
    (hq : ∀ e ∈ lq, Q e) (hnew : Q (t, [x], [y]))
    (hupd : ∀ k ss ts, Q (k, ss, ts) → Q (k, ss ++ [x], ts ++ [y])) :
    ∀ e ∈ lqAppend lq t x y, Q e := by
  induction lq with
  | nil =>
    intro e he
    simp only [lqAppend, List.mem_singleton] at he
    exact he ▸ hnew
  | cons e0 rest ih =>
    obtain ⟨k, ss, ts⟩ := e0
    intro e he
    by_cases hk : k = t
    · simp only [lqAppend, if_pos hk, List.mem_cons] at he
      rcases he with h1 | h2
      · exact h1 ▸ hupd k ss ts (hq _ (by simp))
      · exact hq e (List.mem_cons_of_mem _ h2)
    · simp only [lqAppend, if_neg hk, List.mem_cons] at he
      rcases he with h1 | h2
      · exact h1 ▸ hq _ (by simp)
      · exact ih (fun e' he' => hq e' (List.mem_cons_of_mem _ he')) e h2

theorem foldl_inv (P : ParserState → Prop)
    (hstep : ∀ s l s', P s → step s l = .ok s' → P s') :
    ∀ (lines : List String) (s0 s : ParserState), P s0 →
      lines.foldlM step s0 = .ok s → P s := by
  intro lines
  induction lines with
  | nil =>
    intro s0 s h0 h
    simp only [List.foldlM_nil, pure] at h
    cases h
    exact h0
  | cons l ls ih =>
    intro s0 s h0 h
    rw [List.foldlM_cons] at h
    cases hs : step s0 l with
    | error e =>
      rw [hs] at h
      exact Except.noConfusion h
    | ok s1 =>
      rw [hs] at h
      exact ih s1 s (hstep s0 l s1 h0 hs) h

/-- C1 counterexample: on the spec's §8.5 four-line example the parser does not
produce `bruteForceTimes = ["500"]` and variant times `["200","350"]`.  The code
records `v[3]` resp. `v[5]`, the second whitespace-separated word after the
dash suffix; on these lines (which lack Go's iterations column) that word is
`ns`, the unit prefix of `ns/op`. -/
theorem C1_example_refuted :
    processLines exampleLines = .ok exampleResult ∧
    exampleResult.bf1 ≠ ["500"] ∧
    lqLookup exampleResult.lq "Foo radius 5" ≠ some (["100", "200"], ["200", "350"]) :=
  ⟨rfl, by decide, by decide⟩

/-- C1 (amended): on the §8.5 example the parser produces
`bruteForceSizes = ["100"]`, `bruteForceTimes = ["ns"]`,
`variantSeries["Foo radius 5"] = (["100","200"], ["ns","ns"])`, and the garbage
line (on which the variant split yields one piece) adds no entries anywhere. -/
theorem C1_example_parse :
    processLines exampleLines = .ok exampleResult ∧
    exampleResult.bf0 = ["100"] ∧ exampleResult.bf1 = ["ns"] ∧
    lqLookup exampleResult.lq "Foo radius 5" = some (["100", "200"], ["ns", "ns"]) ∧
    exampleResult.lq.length = 1 ∧
    (splitVar "garbage line").length = 1 :=
  ⟨rfl, rfl, rfl, rfl, rfl, rfl⟩

/-- C2 counterexample: the line `"a BruteForce"` contains the substring
`BruteForce` and does not match the brute-force pattern (the split returns a
single piece), yet processing it is not a silent skip: it raises
(`v[1]` is out of range, Python's `IndexError`, modelled as `Except.error`). -/
theorem C2_error_raised :
    containsBruteForce "a BruteForce" = true ∧
    (splitBF "a BruteForce").length = 1 ∧
    step initState "a BruteForce" = .error () :=
  ⟨rfl, rfl, rfl⟩

/-- C2 (amended): a line containing `BruteForce` on which the brute-force
pattern does not match anywhere raises an uncaught IndexError, aborting the
parse — the following lines are never processed. -/
theorem C2_unmatched_bruteforce_raises (s : ParserState) (line : String)
    (rest : List String)
    (hc : containsBruteForce line = true) (hm : (splitBF line).length = 1) :
    step s line = .error () ∧ (line :: rest).foldlM step s = .error () := by
  have h1 := step_bf_err s line hc hm
  refine ⟨h1, ?_⟩
  rw [List.foldlM_cons, h1]
  rfl

theorem C2_unmatched_bruteforce_raises_witness :
    step initState "a BruteForce line" = .error () ∧
    (["a BruteForce line", "BenchmarkBruteForce1-2 3 4"].foldlM step initState) =
      .error () :=
  C2_unmatched_bruteforce_raises initState "a BruteForce line"
    ["BenchmarkBruteForce1-2 3 4"] rfl rfl

/-- C3: after processing any list of input lines that completes without an
exception, the brute-force aggregate and every entry of the variant mapping
have size and time sequences of equal length. -/
theorem C3_parallel_lengths (lines : List String) (s : ParserState)
    (h : processLines lines = .ok s) : seriesLensEq s := by
  refine foldl_inv seriesLensEq ?_ lines initState s ?_ h
  · intro s0 l s' hP hs
    rcases step_ok_cases s0 s' l hs with ⟨x, y, rfl⟩ | ⟨t, x, y, rfl⟩ | rfl
    · exact ⟨by simp [hP.1], hP.2⟩
    · refine ⟨hP.1, ?_⟩
      exact lqAppend_mem s0.lq t x y hP.2 (by simp)
        (fun k ss ts hq => by simp [hq])
    · exact hP
  · exact ⟨rfl, fun e he => absurd he (List.not_mem_nil e)⟩

theorem C3_parallel_lengths_witness :
    processLines exampleLines = .ok exampleResult ∧ seriesLensEq exampleResult :=
  ⟨rfl, C3_parallel_lengths exampleLines exampleResult rfl⟩

/-- C4: an accepted variant line (one whose split has exactly 7 pieces
`[p, g1, g2, g3, g4, g5, q]`) is recorded under the key
`g1 ++ " radius " ++ g3` — algorithm name and radius only, the Lq size `g2` is
not part of the label; the pair `(g2, g5)` is appended at the end of that key's
two sequences (input order) and every other key is untouched. -/
theorem C4_label_and_append (s : ParserState) (line p g1 g2 g3 g4 g5 q : String)
    (hc : containsBruteForce line = false)
    (hv : splitVar line = [p, g1, g2, g3, g4, g5, q]) :
    step s line = .ok ⟨s.bf0, s.bf1, lqAppend s.lq (g1 ++ " radius " ++ g3) g2 g5⟩ ∧
    lqLookup (lqAppend s.lq (g1 ++ " radius " ++ g3) g2 g5) (g1 ++ " radius " ++ g3) =
      some (((lqLookup s.lq (g1 ++ " radius " ++ g3)).getD ([], [])).1 ++ [g2],
            ((lqLookup s.lq (g1 ++ " radius " ++ g3)).getD ([], [])).2 ++ [g5]) ∧
    (∀ k, k ≠ g1 ++ " radius " ++ g3 →
      lqLookup (lqAppend s.lq (g1 ++ " radius " ++ g3) g2 g5) k = lqLookup s.lq k) := by
  refine ⟨?_, lqLookup_lqAppend_self _ _ _ _,
    fun k hk => lqLookup_lqAppend_ne _ _ _ _ _ hk⟩
  have h := step_var_of_len7 s line hc (by rw [hv]; rfl)
  rw [hv] at h
  simpa using h

theorem C4_label_and_append_witness :
    containsBruteForce "BenchmarkFooLq100Radius5-8   200   ns/op" = false ∧
    splitVar "BenchmarkFooLq100Radius5-8   200   ns/op" =
      ["", "Foo", "100", "5", "200", "ns", "/op"] ∧
    (step initState "BenchmarkFooLq100Radius5-8   200   ns/op" =
        .ok ⟨initState.bf0, initState.bf1,
          lqAppend initState.lq ("Foo" ++ " radius " ++ "5") "100" "ns"⟩ ∧
      lqLookup (lqAppend initState.lq ("Foo" ++ " radius " ++ "5") "100" "ns")
          ("Foo" ++ " radius " ++ "5") =
        some (((lqLookup initState.lq ("Foo" ++ " radius " ++ "5")).getD ([], [])).1 ++ ["100"],
              ((lqLookup initState.lq ("Foo" ++ " radius " ++ "5")).getD ([], [])).2 ++ ["ns"]) ∧
      (∀ k, k ≠ "Foo" ++ " radius " ++ "5" →
        lqLookup (lqAppend initState.lq ("Foo" ++ " radius " ++ "5") "100" "ns") k =
          lqLookup initState.lq k)) :=
  ⟨rfl, rfl, C4_label_and_append initState "BenchmarkFooLq100Radius5-8   200   ns/op"
    "" "Foo" "100" "5" "200" "ns" "/op" rfl rfl⟩

/-- C5: a line without the `BruteForce` substring contributes to the variant
mapping exactly when its split on the variant pattern has 7 pieces; with any
other split length the step returns the state unchanged. -/
theorem C5_accept_iff_len7 (s : ParserState) (line : String)
    (hc : containsBruteForce line = false) :
    ((splitVar line).length = 7 ↔ ∃ s', step s line = .ok s' ∧ s'.lq ≠ s.lq) ∧
    ((splitVar line).length ≠ 7 → step s line = .ok s) := by
  refine ⟨⟨fun h7 => ?_, fun h => ?_⟩, step_var_of_ne7 s line hc⟩
  · exact ⟨_, step_var_of_len7 s line hc h7, lqAppend_ne s.lq _ _ _⟩
  · obtain ⟨s', hok, hne⟩ := h
    by_contra h7
    rw [step_var_of_ne7 s line hc h7] at hok
    cases hok
    exact hne rfl

theorem C5_accept_iff_len7_witness :
    containsBruteForce "garbage line" = false ∧
    (((splitVar "garbage line").length = 7 ↔
        ∃ s', step initState "garbage line" = .ok s' ∧ s'.lq ≠ initState.lq) ∧
      ((splitVar "garbage line").length ≠ 7 →
        step initState "garbage line" = .ok initState)) :=
  ⟨rfl, C5_accept_iff_len7 initState "garbage line" rfl⟩

/-- C6 counterexample: `"a BruteForce b"` matches neither pattern, yet
processing it is not a no-op on the aggregates: the brute-force branch raises
(`IndexError`), so the step does not return the unchanged state. -/
theorem C6_crash_not_noop :
    matchesNeitherShape "a BruteForce b" = true ∧
    step initState "a BruteForce b" = .error () ∧
    step initState "a BruteForce b" ≠ .ok initState :=
  ⟨rfl, rfl, fun h => by
    rw [show step initState "a BruteForce b" = .error () from rfl] at h
    exact Except.noConfusion h⟩

/-- C6 (amended): a line matching neither pattern is a no-op exactly when it
does not contain the `BruteForce` substring; when it does contain it, the step
raises an uncaught IndexError (the aggregates are not modified before the
abort, but processing stops). -/
theorem C6_no_shape_step (s : ParserState) (line : String)
    (h : matchesNeitherShape line = true) :
    (containsBruteForce line = false → step s line = .ok s) ∧
    (containsBruteForce line = true → step s line = .error ()) := by
  have h2 : (splitBF line).length = 1 ∧ (splitVar line).length = 1 := by
    simpa [matchesNeitherShape] using h
  exact ⟨fun hc => step_var_of_ne7 s line hc (by omega),
    fun hc => step_bf_err s line hc h2.1⟩

theorem C6_no_shape_step_witness :
    matchesNeitherShape "some random text" = true ∧
    ((containsBruteForce "some random text" = false →
        step initState "some random text" = .ok initState) ∧
      (containsBruteForce "some random text" = true →
        step initState "some random text" = .error ())) :=
  ⟨rfl, C6_no_shape_step initState "some random text" rfl⟩

/-- C7 counterexample: for the two-line input `legendLines` the labels are
first seen in the order `Bar radius 5`, `Foo radius 5`, but the legend built by
iterating the Python 2 dict comes out in hash-slot order with `Foo radius 5`
first — not `"Brute Force"` followed by the first-seen order. -/
theorem C7_legend_not_first_seen :
    processLines legendLines = .ok legendState ∧
    legendState.lq.map Prod.fst = ["Bar radius 5", "Foo radius 5"] ∧
    legend legendState = ["Brute Force", "Foo radius 5", "Bar radius 5"] ∧
    legend legendState ≠ "Brute Force" :: legendState.lq.map Prod.fst :=
  ⟨rfl, rfl, rfl, by decide⟩

/-- C7 (amended): the legend starts with `"Brute Force"` and is followed by the
variant labels in CPython 2.7 dict iteration order — hash-table slot order
(`hash(label) mod 8` with open-addressing probing for at most 5 labels) — which
need not be first-seen order: here `Bar radius 5` (slot 6) was seen first but
`Foo radius 5` (slot 3) is listed first. -/
theorem C7_legend_slot_order :
    pyhash "Bar radius 5" % 8 = 6 ∧ pyhash "Foo radius 5" % 8 = 3 ∧
    pyDictIterOrder ["Bar radius 5", "Foo radius 5"] =
      ["Foo radius 5", "Bar radius 5"] ∧
    legend legendState = ["Brute Force", "Foo radius 5", "Bar radius 5"] :=
  ⟨rfl, rfl, rfl, rfl⟩

/-- C8: a line containing the `BruteForce` substring is handled only by the
brute-force branch: whenever its step completes, the variant mapping is
exactly what it was before, even if the line also matches the variant
pattern. -/
theorem C8_bruteforce_branch_lq (s s' : ParserState) (line : String)
    (hc : containsBruteForce line = true) (h : step s line = .ok s') :
    s'.lq = s.lq := by
  unfold step at h
  rw [hc] at h
  simp only [if_true, ite_true] at h
  split at h
  · exact Except.noConfusion h
  · split at h
    · exact Except.noConfusion h
    · cases h
      rfl

theorem C8_bruteforce_branch_lq_witness :
    containsBruteForce "BenchmarkBruteForce1-2 3 4 BenchmarkFooLq5Radius6-7 8 9" = true ∧
    (splitVar "BenchmarkBruteForce1-2 3 4 BenchmarkFooLq5Radius6-7 8 9").length = 7 ∧
    step initState "BenchmarkBruteForce1-2 3 4 BenchmarkFooLq5Radius6-7 8 9" =
      .ok ⟨["1"], ["4"], []⟩ ∧
    (ParserState.mk ["1"] ["4"] []).lq = initState.lq :=
  ⟨rfl, rfl, rfl,
    C8_bruteforce_branch_lq initState ⟨["1"], ["4"], []⟩
      "BenchmarkBruteForce1-2 3 4 BenchmarkFooLq5Radius6-7 8 9" rfl rfl⟩

/-- C9: with fewer than two `argv` entries (no file argument after the program
name) `main` prints `need a benchmark to plot` and exits with status 1, for
every possible file-reading function — so no file is read and no aggregate is
built. -/
theorem C9_usage_exit (argv : List String) (h : argv.length < 2) :
    ∀ readLines : String → List String,
      mainRun argv readLines = .usageExit "need a benchmark to plot" 1 := by
  intro f
  match argv with
  | [] => rfl
  | [_] => rfl
  | _ :: _ :: _ =>
    simp only [List.length_cons] at h
    omega

theorem C9_usage_exit_witness :
    (["plotbench.py"] : List String).length < 2 ∧
    mainRun ["plotbench.py"] (fun _ => ["BenchmarkBruteForce100-8 1 2"]) =
      .usageExit "need a benchmark to plot" 1 :=
  ⟨by decide, C9_usage_exit ["plotbench.py"] (by decide) _⟩

/-- C10: every key present in the variant mapping after a completed parse was
created by an accepted line, so both of its parallel sequences have length at
least 1. -/
theorem C10_nonempty_series (lines : List String) (s : ParserState)
    (h : processLines lines = .ok s) : seriesNonempty s := by
  refine foldl_inv seriesNonempty ?_ lines initState s ?_ h
  · intro s0 l s' hP hs
    rcases step_ok_cases s0 s' l hs with ⟨x, y, rfl⟩ | ⟨t, x, y, rfl⟩ | rfl
    · exact hP
    · exact lqAppend_mem s0.lq t x y hP (by simp)
        (fun k ss ts hq => by
          constructor <;> (simp only [List.length_append, List.length_singleton]; omega))
    · exact hP
  · intro e he
    exact absurd he (List.not_mem_nil e)

theorem C10_nonempty_series_witness :
    processLines legendLines = .ok legendState ∧ seriesNonempty legendState :=
  ⟨rfl, C10_nonempty_series legendLines legendState rfl⟩

end Plotbench


namespace Plotbench

/-- Fidelity of the `patbf` split model, checked against CPython `re.split` on
a battery of inputs: a full Go-style benchmark line. -/
theorem splitBF_full_line :
    splitBF "BenchmarkBruteForce100-8   500   ns/op" = ["", "100", "500", "ns", "/op"] := rfl

/-- Fidelity: `BruteForce` alone does not match `patbf`, the split is the whole line. -/
theorem splitBF_no_match : splitBF "BruteForce" = ["BruteForce"] := rfl

/-- Fidelity: all-empty groups still match (`every quantifier is starred`). -/
theorem splitBF_empty_groups : splitBF "BenchmarkBruteForce-" = ["", "", "", "", ""] := rfl

/-- Fidelity: digits after the dash are consumed before the first word group. -/
theorem splitBF_mid_line :
    splitBF "xxBenchmarkBruteForce12-34abc def" = ["xx", "12", "abc", "def", ""] := rfl

/-- Fidelity: without the dash the pattern does not match. -/
theorem splitBF_no_dash :
    splitBF "BenchmarkBruteForce100x" = ["BenchmarkBruteForce100x"] := rfl

/-- Fidelity: two matches on one line produce `4*2 + 1 = 9` pieces. -/
theorem splitBF_two_matches :
    splitBF "BenchmarkBruteForce1-2 3 4 BenchmarkBruteForce5-6 7 8" =
      ["", "1", "3", "4", " ", "5", "7", "8", ""] := rfl

/-- Fidelity of the `pat` split model: a full variant line. -/
theorem splitVar_full_line :
    splitVar "BenchmarkFooLq100Radius5-8   200   ns/op" =
      ["", "Foo", "100", "5", "200", "ns", "/op"] := rfl

/-- Fidelity: no `Benchmark` literal, no match. -/
theorem splitVar_no_match : splitVar "garbage line" = ["garbage line"] := rfl

/-- Fidelity: the greedy group 1 takes the longest prefix that still lets
`Lq(digits)Radius(digits)-` match, here `FooLqX` rather than `Foo`. -/
theorem splitVar_greedy_g1 :
    splitVar "BenchmarkFooLqXLq100Radius5-8 1 2" =
      ["", "FooLqX", "100", "5", "1", "2", ""] := rfl

/-- Fidelity: the minimal matching line, all groups empty. -/
theorem splitVar_empty_groups :
    splitVar "BenchmarkLqRadius-" = ["", "", "", "", "", "", ""] := rfl

/-- Fidelity: two matches on one line produce `6*2 + 1 = 13` pieces, so the
`len(v) == 7` guard rejects such a line. -/
theorem splitVar_two_matches :
    splitVar "BenchmarkALq1Radius2-3 x y BenchmarkBLq4Radius5-6 z w" =
      ["", "A", "1", "2", "x", "y", " ", "B", "4", "5", "z", "w", ""] := rfl

/-- Fidelity: a second `Radius` blocks the required dash, so nothing matches. -/
theorem splitVar_radius_twice :
    splitVar "BenchmarkFooLq1RadiusRadius2-3 a b" =
      ["BenchmarkFooLq1RadiusRadius2-3 a b"] := rfl

/-- The hash model agrees with CPython 2.7 on the classic published value of
`hash("a")` on a 64-bit build. -/
theorem pyhash_a : pyhash "a" = 12416037344 := by decide

end Plotbench
